import Mathlib

/-!
# Verification of the conversational tutoring engine

Shallow embedding of the turn-processing engine of the app:
* text normalization and exact-match retry gating (`apps/worker/src/lib/openai.ts`),
* the tool executor and applier (`tools` module, second half of
  `sessions-durable-object.ts`),
* the session engine (`session-engine.ts`): `createSession`, `processTurn`,
  `endSession`,
* the quiz-submit route of `sessions-router.ts`.

External collaborators (the LLM decision call, the narration call, wall-clock
timing, fresh UUIDs) are modelled as oracle inputs: `processTurn` receives the
outcome each collaborator call would produce and the duration it would take,
and returns how many times each collaborator was invoked.  Timestamps and
message ids are abstracted to natural numbers.
-/

namespace ConvApp

-- ===========================================================================
-- Data model (packages/shared/src/schemas)
-- ===========================================================================

inductive Phase
  | roleplay
  | quiz
  | completed
  deriving DecidableEq, Repr

inductive Role
  | user
  | tutor
  deriving DecidableEq, Repr

structure TranscriptMessage where
  id : Nat
  role : Role
  text : String
  ts : Nat
  deriving DecidableEq, Repr

structure Mistake where
  id : Nat
  mtype : String
  original : String
  corrected : Option String
  ts : Nat
  deriving DecidableEq, Repr

structure PendingRetry where
  expected : String
  attempts : Nat
  deriving DecidableEq, Repr

structure ActiveQuiz where
  quizId : String
  startedAt : Nat
  deriving DecidableEq, Repr

structure QuizResult where
  quizId : String
  score : Nat
  total : Nat
  answers : List Int
  completedAt : Nat
  deriving DecidableEq, Repr

structure SessionCompletion where
  summary : String
  completedAt : Nat
  deriving DecidableEq, Repr

/-- The closed union of tools the decision may request (ToolSchema). -/
inductive Tool
  | start_quiz (quizId : String)
  | grade_quiz (quizId : String) (answers : List Int)
  | get_hint (topic : Option String)
  | log_mistake (original : String) (corrected : String) (mtype : Option String)
  | mark_complete (summary : String)
  deriving DecidableEq, Repr

inductive ToolName
  | start_quiz
  | grade_quiz
  | get_hint
  | log_mistake
  | mark_complete
  deriving DecidableEq, Repr

def Tool.name : Tool → ToolName
  | .start_quiz _ => .start_quiz
  | .grade_quiz _ _ => .grade_quiz
  | .get_hint _ => .get_hint
  | .log_mistake _ _ _ => .log_mistake
  | .mark_complete _ => .mark_complete

structure TeacherDecision where
  feedback : String
  correction : Option String
  isMistake : Bool
  shouldRetry : Bool
  nextPhase : Option Phase
  tool : Option Tool
  reply : String
  deriving DecidableEq, Repr

structure SessionState where
  id : String
  createdAt : Nat
  updatedAt : Nat
  levelId : String
  scenarioId : String
  phase : Phase
  transcript : List TranscriptMessage
  turnCount : Nat
  mistakes : List Mistake
  postQuizId : Option String
  pendingRetry : Option PendingRetry
  lastDecision : Option TeacherDecision
  activeQuiz : Option ActiveQuiz
  quizResult : Option QuizResult
  completion : Option SessionCompletion
  deriving DecidableEq, Repr

-- ===========================================================================
-- Content repository (content-loader)
-- ===========================================================================

structure QuizItem where
  question : String
  options : List String
  correctIndex : Nat
  deriving DecidableEq, Repr

structure Quiz where
  id : String
  items : List QuizItem
  deriving DecidableEq, Repr

structure Persona where
  id : String
  name : String
  role : String
  instructions : String
  deriving DecidableEq, Repr

structure Scenario where
  id : String
  levelId : String
  title : String
  personaId : String
  initialMessage : String
  postQuizId : Option String
  deriving DecidableEq, Repr

structure Content where
  scenarios : List Scenario
  personas : List Persona
  quizzes : List Quiz
  deriving Repr

def getScenarioById (c : Content) (id : String) : Option Scenario :=
  c.scenarios.find? (fun s => s.id == id)

def getPersonaById (c : Content) (id : String) : Option Persona :=
  c.personas.find? (fun p => p.id == id)

def getQuizById (c : Content) (id : String) : Option Quiz :=
  c.quizzes.find? (fun q => q.id == id)

-- ===========================================================================
-- Text normalizer (openai.ts, normalizeForExactMatch / isExactMatch)
-- ===========================================================================

/-- The whitespace class of the JavaScript regexp `\s` (also the set removed
by `String.prototype.trim`). -/
def isWs (c : Char) : Bool :=
  c == ' ' || c == '\t' || c == '\n' || c == '\r' || c == '\x0b' ||
  c == '\x0c' || c == '\u00a0' || c == '\u1680' ||
  ('\u2000' ≤ c && c ≤ '\u200a') || c == '\u2028' || c == '\u2029' ||
  c == '\u202f' || c == '\u205f' || c == '\u3000' || c == '\ufeff'

/-- The punctuation class stripped at the string boundaries: `[.,!?;:]`. -/
def isStripPunct (c : Char) : Bool :=
  c == '.' || c == ',' || c == '!' || c == '?' || c == ';' || c == ':'

/-- Char-wise model of `toLowerCase` (simple case mapping, ASCII letters). -/
def jsLower (c : Char) : Char :=
  if 65 ≤ c.toNat && c.toNat ≤ 90 then Char.ofNat (c.toNat + 32) else c

def dropTrailingWhile (p : Char → Bool) (l : List Char) : List Char :=
  (l.reverse.dropWhile p).reverse

/-- `String.prototype.trim`. -/
def trimWs (l : List Char) : List Char :=
  dropTrailingWhile isWs (l.dropWhile isWs)

/-- `replace(/\s+/g, ' ')`: every maximal whitespace run becomes one space.
The flag records whether the previous character was whitespace (in which case
the current run has already emitted its single space). -/
def collapseGo : Bool → List Char → List Char
  | _, [] => []
  | prevWs, c :: rest =>
    if isWs c then
      if prevWs then collapseGo true rest
      else ' ' :: collapseGo true rest
    else c :: collapseGo false rest

def collapseWs (l : List Char) : List Char :=
  collapseGo false l

/-- `replace(/^[.,!?;:]+|[.,!?;:]+$/g, '')`: remove the maximal leading and
trailing runs of the punctuation set. -/
def stripPunct (l : List Char) : List Char :=
  dropTrailingWhile isStripPunct (l.dropWhile isStripPunct)

/-- The normalization pipeline on character lists:
lowercase, trim, collapse whitespace runs, strip boundary punctuation. -/
def normChars (l : List Char) : List Char :=
  stripPunct (collapseWs (trimWs (l.map jsLower)))

/-- `normalizeForExactMatch` (openai.ts:45-51). -/
def normalizeForExactMatch (s : String) : String :=
  (normChars s.toList).asString

/-- `isExactMatch` (openai.ts:56-58). -/
def isExactMatch (text1 text2 : String) : Bool :=
  normalizeForExactMatch text1 == normalizeForExactMatch text2

-- ===========================================================================
-- Fallback decision (openai.ts, createFallbackDecision)
-- ===========================================================================

/-- The fixed apology reply of the fallback decision. -/
def fallbackReply : String := "Sorry—something glitched. Please try that again."

/-- `createFallbackDecision` (openai.ts:379-388). -/
def createFallbackDecision : TeacherDecision :=
  { feedback := "fallback"
    correction := none
    isMistake := false
    shouldRetry := false
    nextPhase := none
    tool := none
    reply := fallbackReply }

-- ===========================================================================
-- Tool executor (tools module: executeTool)
-- ===========================================================================

inductive ToolData
  | activeQuizData (a : ActiveQuiz)
  | quizResultData (r : QuizResult)
  | mistakeData (m : Mistake)
  | completionData (s : SessionCompletion)
  deriving DecidableEq, Repr

structure ToolResultData where
  success : Bool
  message : String
  data : Option ToolData
  deriving DecidableEq, Repr

structure ToolResult where
  toolName : ToolName
  resultData : ToolResultData
  deriving DecidableEq, Repr

/-- An answer is accepted when it is `-1` (unanswered) or lies in
`[0, optionCount-1]`; the executor fails on the first answer for which
`answer !== -1 && (answer < 0 || answer >= numOptions)`. -/
def answerOk (numOptions : Nat) (a : Int) : Bool :=
  a == -1 || (0 ≤ a && a < (numOptions : Int))

/-- First out-of-range answer: its index, value and the option count of its
question (the data used in the failure message). -/
def firstBadAnswer (items : List QuizItem) (answers : List Int) (i : Nat) :
    Option (Nat × Int × Nat) :=
  match items, answers with
  | item :: items, a :: rest =>
    if answerOk item.options.length a then firstBadAnswer items rest (i + 1)
    else some (i, a, item.options.length)
  | _, _ => none

/-- Number of answers equal to their question's `correctIndex`.  `-1` never
equals a `correctIndex` (which is a natural number), so unanswered questions
always count as incorrect. -/
def countCorrect (items : List QuizItem) (answers : List Int) : Nat :=
  match items, answers with
  | item :: items, a :: rest =>
    (if a == (item.correctIndex : Int) then 1 else 0) + countCorrect items rest
  | _, _ => 0

/-- `Math.round((correctCount / itemCount) * 100)` over the exact ratio:
round-half-up, computed as `⌊(100*c)/t + 1/2⌋ = (200*c + t) / (2*t)`. -/
def quizScore (correctCount itemCount : Nat) : Nat :=
  (200 * correctCount + itemCount) / (2 * itemCount)

/-- The fixed topic → hint table of `get_hint`. -/
def hintTemplates : List (String × String) :=
  [("greeting", "Try greeting first with \"Hola\" or \"¿Cómo estás?\""),
   ("polite", "Use \"Por favor\" and \"Gracias\" to be polite"),
   ("directions", "Ask \"¿Dónde está...?\" for locations"),
   ("numbers", "Remember numbers 1-10: uno, dos, tres, cuatro, cinco..."),
   ("time", "Ask \"¿Qué hora es?\" to ask for the time"),
   ("food", "Use \"Me gustaria...\" to order food")]

def jsLowerString (s : String) : String :=
  (s.toList.map jsLower).asString

/-- `get_hint` message: table lookup on the lowercased topic with a generic
fallback; when the topic is absent/empty and a `lastDecision` exists, a
learning-goals reminder is used instead. -/
def getHintMessage (topic : Option String) (session : SessionState) : String :=
  let lowerTopic := match topic with
    | some t => jsLowerString t
    | none => ""
  let base := match hintTemplates.find? (fun p => p.1 == lowerTopic) with
    | some p => p.2
    | none => "Review the learning goals and try using the vocabulary from this lesson."
  if (topic = none ∨ topic = some "") ∧ session.lastDecision.isSome then
    "Remember to use the vocabulary and phrases from the learning goals!"
  else base

/-- `executeTool` (tools module).  `now` abstracts `new Date()`, `uid` the
fresh UUID drawn for a logged mistake. -/
def executeTool (c : Content) (now uid : Nat) (tool : Tool)
    (session : SessionState) : ToolResult :=
  match tool with
  | .start_quiz quizId =>
    match getQuizById c quizId with
    | none =>
      ⟨.start_quiz, ⟨false, "Quiz not found: " ++ quizId, none⟩⟩
    | some quiz =>
      ⟨.start_quiz,
       ⟨true,
        "Quiz \"" ++ quizId ++ "\" started with " ++
          toString quiz.items.length ++ " questions",
        some (.activeQuizData ⟨quizId, now⟩)⟩⟩
  | .grade_quiz quizId answers =>
    match getQuizById c quizId with
    | none =>
      ⟨.grade_quiz, ⟨false, "Quiz not found: " ++ quizId, none⟩⟩
    | some quiz =>
      if answers.length ≠ quiz.items.length then
        ⟨.grade_quiz,
         ⟨false,
          "Expected " ++ toString quiz.items.length ++ " answers, got " ++
            toString answers.length,
          none⟩⟩
      else
        match firstBadAnswer quiz.items answers 0 with
        | some (i, a, numOptions) =>
          ⟨.grade_quiz,
           ⟨false,
            "Answer " ++ toString i ++ " (" ++ toString a ++
              ") is out of range [0, " ++ toString (numOptions - 1) ++ "]",
            none⟩⟩
        | none =>
          let correctCount := countCorrect quiz.items answers
          let score := quizScore correctCount quiz.items.length
          ⟨.grade_quiz,
           ⟨true,
            "Quiz graded: " ++ toString correctCount ++ "/" ++
              toString quiz.items.length ++ " correct (" ++ toString score ++ "%)",
            some (.quizResultData ⟨quizId, score, quiz.items.length, answers, now⟩)⟩⟩
  | .get_hint topic =>
    ⟨.get_hint, ⟨true, getHintMessage topic session, none⟩⟩
  | .log_mistake original corrected mtype =>
    let mtypeVal := match mtype with
      | some t => if t = "" then "general" else t
      | none => "general"
    ⟨.log_mistake,
     ⟨true,
      "Logged mistake: \"" ++ original ++ "\" → \"" ++ corrected ++ "\"",
      some (.mistakeData ⟨uid, mtypeVal, original, some corrected, now⟩)⟩⟩
  | .mark_complete summary =>
    ⟨.mark_complete,
     ⟨true, "Session marked as completed", some (.completionData ⟨summary, now⟩)⟩⟩

-- ===========================================================================
-- Tool applier (tools module: applyToolResultToSession)
-- ===========================================================================

/-- `applyToolResultToSession`: refresh `updatedAt`; on success apply the
variant-specific state change.  Per the source, a data payload of the wrong
shape behaves like a missing one (`resultData.data?.x as T | undefined`). -/
def applyToolResultToSession (session : SessionState) (toolName : ToolName)
    (resultData : ToolResultData) (now : Nat) : SessionState :=
  let updatedSession := { session with updatedAt := now }
  if resultData.success = false then updatedSession
  else
    match toolName with
    | .start_quiz =>
      { updatedSession with
        phase := .quiz
        activeQuiz := match resultData.data with
          | some (.activeQuizData a) => some a
          | _ => none }
    | .grade_quiz =>
      { updatedSession with
        quizResult := match resultData.data with
          | some (.quizResultData r) => some r
          | _ => none }
    | .log_mistake =>
      { updatedSession with
        mistakes := session.mistakes ++ (match resultData.data with
          | some (.mistakeData m) => [m]
          | _ => []) }
    | .mark_complete =>
      { updatedSession with
        phase := .completed
        completion := match resultData.data with
          | some (.completionData s) => some s
          | _ => none }
    | .get_hint => updatedSession

-- ===========================================================================
-- Session engine (session-engine.ts)
-- ===========================================================================

inductive EngineError
  | sessionNotFound (id : String)
  | invalidPhase (phase : Phase)
  | scenarioNotFound (id : String)
  | scenarioLevelMismatch (scenarioId levelId : String)
  | personaNotFound (id : String)
  deriving DecidableEq, Repr

/-- `SessionEngine.createSession`: validate the scenario and its level, seed
the transcript with the scenario's initial tutor message.  `sid` abstracts the
generated session UUID and `mid` the initial message's UUID. -/
def createSession (c : Content) (now : Nat) (sid : String) (mid : Nat)
    (levelId scenarioId : String) : Except EngineError SessionState :=
  match getScenarioById c scenarioId with
  | none => .error (.scenarioNotFound scenarioId)
  | some scenario =>
    if scenario.levelId ≠ levelId then
      .error (.scenarioLevelMismatch scenarioId levelId)
    else
      .ok
        { id := sid
          createdAt := now
          updatedAt := now
          levelId := levelId
          scenarioId := scenarioId
          phase := .roleplay
          transcript := [⟨mid, .tutor, scenario.initialMessage, now⟩]
          turnCount := 0
          mistakes := []
          postQuizId := scenario.postQuizId
          pendingRetry := none
          lastDecision := none
          activeQuiz := none
          quizResult := none
          completion := none }

/-- `SessionEngine.generateRetryMessage`: local, persona-keyed nudge embedding
the normalized expected phrase; no collaborator call. -/
def generateRetryMessage (expected : String) (attempts : Nat)
    (persona : Persona) : String :=
  let normalizedExpected := normalizeForExactMatch expected
  if persona.id = "jorge" then
    if attempts ≤ 2 then
      "(Jorge) Atrévete a intentarlo de nuevo: \"" ++ normalizedExpected ++ "\""
    else
      "(Jorge) ¡Vamos, tú puedes! La respuesta correcta es \"" ++
        normalizedExpected ++ "\". ¡Inténtalo de nuevo!"
  else if persona.id = "valentina" then
    if attempts ≤ 2 then
      "(Valentina) Casi lo tienes. Recuerda: \"" ++ normalizedExpected ++
        "\". ¿Puedes intentarlo otra vez?"
    else
      "(Valentina) ¡No te rindas! La frase correcta es \"" ++
        normalizedExpected ++ "\". ¡Tú puedes!"
  else
    if attempts ≤ 2 then
      "Intenta de nuevo: \"" ++ normalizedExpected ++ "\""
    else
      "La respuesta correcta es \"" ++ normalizedExpected ++
        "\". Por favor, inténtalo de nuevo."

/-- Outcome and duration of each external collaborator call the turn might
make, supplied as an oracle: `.error` models a thrown/failed call. -/
structure TurnOracle where
  decision : Except String TeacherDecision
  narration : Except String String
  llmDuration : Nat
  toolDuration : Nat

structure ProcessTurnOutput where
  session : SessionState
  llmMs : Nat
  toolMs : Nat
  decisionCalls : Nat
  narrationCalls : Nat
  deriving DecidableEq, Repr

/-- JavaScript truthiness of the optional `correction` string. -/
def truthyStr : Option String → Bool
  | none => false
  | some s => s != ""

/-- The tools whose successful result triggers a narration follow-up call. -/
def narrationTools : List ToolName := [.start_quiz, .grade_quiz, .mark_complete]

/-- The decision used by the turn: the generated one, or the fallback when the
collaborator call failed. -/
def decisionOf : Except String TeacherDecision → TeacherDecision
  | .ok d => d
  | .error _ => createFallbackDecision

structure ToolStepResult where
  session2 : SessionState
  tutorReply : String
  finalDecision : TeacherDecision
  toolMs : Nat
  narrationCalls : Nat
  deriving DecidableEq, Repr

/-- The optional tool-execution step of a turn: at most one tool runs, its
result is applied through the applier, major successful tools get a narration
follow-up (whose failure falls back to the tool's own message), and the
decision handed on always carries `tool = null`. -/
def toolStep (c : Content) (oracle : TurnOracle) (now uid : Nat)
    (session : SessionState) (decision : TeacherDecision) : ToolStepResult :=
  match decision.tool with
  | some tool =>
    let tr := executeTool c now (uid + 1) tool session
    let session2 := applyToolResultToSession session tr.toolName tr.resultData now
    if narrationTools.contains tr.toolName && tr.resultData.success then
      let tutorReply := match oracle.narration with
        | .ok s => s
        | .error _ => tr.resultData.message
      ⟨session2, tutorReply, { decision with reply := tutorReply, tool := none },
       oracle.toolDuration, 1⟩
    else
      ⟨session2, tr.resultData.message,
       { decision with reply := tr.resultData.message, tool := none },
       oracle.toolDuration, 0⟩
  | none => ⟨session, decision.reply, decision, 0, 0⟩

/-- The non-gated remainder of `processTurn` (decision generation, optional
tool execution and narration, final session update).  When no tool runs, the
empty timing window rounds to `toolMs = 0`. -/
def fullGeneration (c : Content) (oracle : TurnOracle) (now uid : Nat)
    (session : SessionState) (userMessage : TranscriptMessage) :
    ProcessTurnOutput :=
  let decision := decisionOf oracle.decision
  let step := toolStep c oracle now uid session decision
  let newPendingRetry : Option PendingRetry :=
    if step.finalDecision.shouldRetry && truthyStr step.finalDecision.correction then
      some ⟨step.finalDecision.correction.getD "", 0⟩
    else none
  { session :=
      { step.session2 with
        updatedAt := now
        transcript := step.session2.transcript ++
          [userMessage, ⟨uid + 2, .tutor, step.tutorReply, now⟩]
        turnCount := step.session2.turnCount + 1
        pendingRetry := newPendingRetry
        lastDecision := some step.finalDecision }
    llmMs := oracle.llmDuration
    toolMs := step.toolMs
    decisionCalls := 1
    narrationCalls := step.narrationCalls }

/-- `SessionEngine.processTurn`: phase guard, content lookups, retry gate,
then decision generation (`fullGeneration`).  The learner message always
carries id `uid`, the tutor message id `uid + 2` (a logged mistake, when one
occurs, takes `uid + 1`). -/
def processTurn (c : Content) (oracle : TurnOracle) (now uid : Nat)
    (session : SessionState) (userText : String) :
    Except EngineError ProcessTurnOutput :=
  if session.phase ≠ .roleplay then .error (.invalidPhase session.phase)
  else
    match getScenarioById c session.scenarioId with
    | none => .error (.scenarioNotFound session.scenarioId)
    | some scenario =>
      match getPersonaById c scenario.personaId with
      | none => .error (.personaNotFound scenario.personaId)
      | some persona =>
        match session.pendingRetry with
        | some pr =>
          if isExactMatch userText pr.expected then
            .ok (fullGeneration c oracle now uid session ⟨uid, .user, userText, now⟩)
          else if 3 ≤ pr.attempts + 1 then
            .ok (fullGeneration c oracle now uid session ⟨uid, .user, userText, now⟩)
          else
            .ok { session := { session with
                    updatedAt := now,
                    transcript := session.transcript ++
                      [⟨uid, .user, userText, now⟩,
                       ⟨uid + 2, .tutor,
                         generateRetryMessage pr.expected (pr.attempts + 1) persona, now⟩],
                    turnCount := session.turnCount + 1,
                    pendingRetry := some ⟨pr.expected, pr.attempts + 1⟩ },
                  llmMs := 0, toolMs := 0, decisionCalls := 0, narrationCalls := 0 }
        | none => .ok (fullGeneration c oracle now uid session ⟨uid, .user, userText, now⟩)

structure SessionSummary where
  turns : Nat
  hasQuiz : Bool
  quizId : Option String
  deriving DecidableEq, Repr

/-- `SessionEngine.endSession`: force `phase = completed` and summarize. -/
def endSession (now : Nat) (session : SessionState) :
    SessionState × SessionSummary :=
  ({ session with updatedAt := now, phase := .completed },
   ⟨session.turnCount, session.postQuizId.isSome, session.postQuizId⟩)

-- ===========================================================================
-- Quiz submit route (sessions-router.ts, SessionRouter.submitQuiz)
-- ===========================================================================

inductive SubmitQuizOutcome
  | sessionMissing
  | gradeFailed (message : String)
  | graded (result : QuizResult) (session : SessionState)
  deriving DecidableEq, Repr

/-- `SessionRouter.submitQuiz`: load the session, run the `grade_quiz`
executor, on failure answer 400 without saving, on success apply the result
through the shared applier and persist.  The source performs no check of the
session's phase and no comparison of `quizId` against `activeQuiz`/`postQuizId`. -/
def submitQuiz (c : Content) (now uid : Nat) (stored : Option SessionState)
    (quizId : String) (answers : List Int) : SubmitQuizOutcome :=
  match stored with
  | none => .sessionMissing
  | some session =>
    let tr := executeTool c now uid (.grade_quiz quizId answers) session
    if tr.resultData.success then
      match tr.resultData.data with
      | some (.quizResultData r) =>
        .graded r (applyToolResultToSession session tr.toolName tr.resultData now)
      | _ => .gradeFailed tr.resultData.message
    else .gradeFailed tr.resultData.message

-- ===========================================================================
-- Engine step relation (the public operations that mutate a stored session)
-- ===========================================================================

/-- One stored-session mutation performed by the engine or the router:
a processed turn (which internally applies at most one tool), an
`endSession`, or an authoritative quiz submission. -/
inductive EngineStep (c : Content) : SessionState → SessionState → Prop
  | turn (oracle : TurnOracle) (now uid : Nat) (userText : String)
      (s : SessionState) (out : ProcessTurnOutput) :
      processTurn c oracle now uid s userText = .ok out →
      EngineStep c s out.session
  | finish (now : Nat) (s : SessionState) :
      EngineStep c s (endSession now s).1
  | submit (now uid : Nat) (quizId : String) (answers : List Int)
      (s : SessionState) (r : QuizResult) (s2 : SessionState) :
      submitQuiz c now uid (some s) quizId answers = .graded r s2 →
      EngineStep c s s2

def phaseIdx : Phase → Nat
  | .roleplay => 0
  | .quiz => 1
  | .completed => 2

-- ===========================================================================
-- Concrete fixtures (used by the witness theorems)
-- ===========================================================================

def quizDemo : Quiz :=
  ⟨"q1",
   [⟨"Pregunta 1", ["a", "b", "c"], 0⟩,
    ⟨"Pregunta 2", ["a", "b", "c"], 1⟩,
    ⟨"Pregunta 3", ["a", "b", "c"], 2⟩]⟩

def personaDemo : Persona := ⟨"jorge", "Jorge", "Taxi Driver", "Sé Jorge."⟩

def scenarioDemo : Scenario :=
  ⟨"taxi", "A1", "Taxi por la ciudad", "jorge", "¡Hola! ¿A dónde vas?", some "q1"⟩

def contentDemo : Content := ⟨[scenarioDemo], [personaDemo], [quizDemo]⟩

/-- A freshly created roleplay session for `scenarioDemo`. -/
def sessionDemo : SessionState :=
  { id := "s1"
    createdAt := 0
    updatedAt := 0
    levelId := "A1"
    scenarioId := "taxi"
    phase := .roleplay
    transcript := [⟨0, .tutor, "¡Hola! ¿A dónde vas?", 0⟩]
    turnCount := 0
    mistakes := []
    postQuizId := some "q1"
    pendingRetry := none
    lastDecision := none
    activeQuiz := none
    quizResult := none
    completion := none }

def sessionRetryDemo : SessionState :=
  { sessionDemo with pendingRetry := some ⟨"al mercado", 0⟩ }

def completedSessionDemo : SessionState :=
  { sessionDemo with phase := .completed }

/-- Oracle for a turn whose decision-generation call throws. -/
def oracleFail : TurnOracle := ⟨.error "timeout", .error "unused", 42, 7⟩

/-- Result of the first non-matching turn against `sessionRetryDemo`. -/
def turn1out : ProcessTurnOutput :=
  { session := { sessionRetryDemo with
      updatedAt := 5,
      transcript := sessionRetryDemo.transcript ++
        [⟨10, .user, "no", 5⟩,
         ⟨12, .tutor, generateRetryMessage "al mercado" (0 + 1) personaDemo, 5⟩],
      turnCount := sessionRetryDemo.turnCount + 1,
      pendingRetry := some ⟨"al mercado", 0 + 1⟩ },
    llmMs := 0, toolMs := 0, decisionCalls := 0, narrationCalls := 0 }

/-- Result of the second consecutive non-matching turn. -/
def turn2out : ProcessTurnOutput :=
  { session := { turn1out.session with
      updatedAt := 6,
      transcript := turn1out.session.transcript ++
        [⟨13, .user, "no", 6⟩,
         ⟨15, .tutor, generateRetryMessage "al mercado" (0 + 1 + 1) personaDemo, 6⟩],
      turnCount := turn1out.session.turnCount + 1,
      pendingRetry := some ⟨"al mercado", 0 + 1 + 1⟩ },
    llmMs := 0, toolMs := 0, decisionCalls := 0, narrationCalls := 0 }

/-- A schema-valid decision that requests a retry without flagging a mistake. -/
def decisionRetryNoMistake : TeacherDecision :=
  { feedback := "ok"
    correction := some "al mercado"
    isMistake := false
    shouldRetry := true
    nextPhase := none
    tool := none
    reply := "Repite conmigo: al mercado" }

def oracleRetryNoMistake : TurnOracle :=
  ⟨.ok decisionRetryNoMistake, .error "unused", 42, 7⟩

-- ===========================================================================
-- General lemmas
-- ===========================================================================

/-- A turn is not short-circuited by the retry gate: either no retry is
pending, or the learner text matches, or the escalation threshold is hit. -/
def NoShortCircuit (session : SessionState) (userText : String) : Prop :=
  ∀ pr, session.pendingRetry = some pr →
    isExactMatch userText pr.expected = true ∨ 3 ≤ pr.attempts + 1

theorem applyTool_fail_eq (session : SessionState) (toolName : ToolName)
    (rd : ToolResultData) (now : Nat) (h : rd.success = false) :
    applyToolResultToSession session toolName rd now =
      { session with updatedAt := now } := by
  simp [applyToolResultToSession, h]

theorem applyTool_transcript (session : SessionState) (toolName : ToolName)
    (rd : ToolResultData) (now : Nat) :
    (applyToolResultToSession session toolName rd now).transcript =
      session.transcript := by
  cases h : rd.success with
  | false => simp [applyToolResultToSession, h]
  | true => cases toolName <;> simp [applyToolResultToSession, h]

theorem applyTool_turnCount (session : SessionState) (toolName : ToolName)
    (rd : ToolResultData) (now : Nat) :
    (applyToolResultToSession session toolName rd now).turnCount =
      session.turnCount := by
  cases h : rd.success with
  | false => simp [applyToolResultToSession, h]
  | true => cases toolName <;> simp [applyToolResultToSession, h]

theorem applyTool_grade_phase (session : SessionState) (rd : ToolResultData)
    (now : Nat) :
    (applyToolResultToSession session .grade_quiz rd now).phase =
      session.phase := by
  cases h : rd.success <;> simp [applyToolResultToSession, h]

theorem toolStep_transcript (c : Content) (oracle : TurnOracle) (now uid : Nat)
    (session : SessionState) (decision : TeacherDecision) :
    (toolStep c oracle now uid session decision).session2.transcript =
      session.transcript := by
  cases h : decision.tool with
  | none => simp [toolStep, h]
  | some tool =>
    simp only [toolStep, h]
    split <;> simp [applyTool_transcript]

theorem toolStep_turnCount (c : Content) (oracle : TurnOracle) (now uid : Nat)
    (session : SessionState) (decision : TeacherDecision) :
    (toolStep c oracle now uid session decision).session2.turnCount =
      session.turnCount := by
  cases h : decision.tool with
  | none => simp [toolStep, h]
  | some tool =>
    simp only [toolStep, h]
    split <;> simp [applyTool_turnCount]

theorem toolStep_shouldRetry (c : Content) (oracle : TurnOracle) (now uid : Nat)
    (session : SessionState) (decision : TeacherDecision) :
    (toolStep c oracle now uid session decision).finalDecision.shouldRetry =
      decision.shouldRetry := by
  cases h : decision.tool with
  | none => simp [toolStep, h]
  | some tool =>
    simp only [toolStep, h]
    split <;> simp

theorem toolStep_correction (c : Content) (oracle : TurnOracle) (now uid : Nat)
    (session : SessionState) (decision : TeacherDecision) :
    (toolStep c oracle now uid session decision).finalDecision.correction =
      decision.correction := by
  cases h : decision.tool with
  | none => simp [toolStep, h]
  | some tool =>
    simp only [toolStep, h]
    split <;> simp

theorem fullGeneration_decisionCalls (c : Content) (oracle : TurnOracle)
    (now uid : Nat) (session : SessionState) (um : TranscriptMessage) :
    (fullGeneration c oracle now uid session um).decisionCalls = 1 := rfl

theorem fullGeneration_lastDecision (c : Content) (oracle : TurnOracle)
    (now uid : Nat) (session : SessionState) (um : TranscriptMessage) :
    (fullGeneration c oracle now uid session um).session.lastDecision =
      some (toolStep c oracle now uid session (decisionOf oracle.decision)).finalDecision := rfl

theorem fullGeneration_pendingRetry (c : Content) (oracle : TurnOracle)
    (now uid : Nat) (session : SessionState) (um : TranscriptMessage) :
    (fullGeneration c oracle now uid session um).session.pendingRetry =
      (if (toolStep c oracle now uid session (decisionOf oracle.decision)).finalDecision.shouldRetry &&
          truthyStr (toolStep c oracle now uid session (decisionOf oracle.decision)).finalDecision.correction then
        some ⟨(toolStep c oracle now uid session (decisionOf oracle.decision)).finalDecision.correction.getD "", 0⟩
      else none) := rfl

theorem fullGeneration_transcript (c : Content) (oracle : TurnOracle)
    (now uid : Nat) (session : SessionState) (um : TranscriptMessage) :
    (fullGeneration c oracle now uid session um).session.transcript =
      session.transcript ++ [um, ⟨uid + 2, .tutor,
        (toolStep c oracle now uid session (decisionOf oracle.decision)).tutorReply, now⟩] := by
  simp [fullGeneration, toolStep_transcript]

theorem fullGeneration_turnCount (c : Content) (oracle : TurnOracle)
    (now uid : Nat) (session : SessionState) (um : TranscriptMessage) :
    (fullGeneration c oracle now uid session um).session.turnCount =
      session.turnCount + 1 := by
  simp [fullGeneration, toolStep_turnCount]

theorem processTurn_ok_phase (c : Content) (oracle : TurnOracle) (now uid : Nat)
    (s : SessionState) (userText : String) (out : ProcessTurnOutput)
    (h : processTurn c oracle now uid s userText = .ok out) :
    s.phase = .roleplay := by
  by_contra hne
  simp [processTurn, hne] at h

/-- Complete inversion of a successful `processTurn`: either the turn went
through decision generation, or it was the gated-retry short circuit. -/
theorem processTurn_ok_inv (c : Content) (oracle : TurnOracle) (now uid : Nat)
    (s : SessionState) (userText : String) (out : ProcessTurnOutput)
    (h : processTurn c oracle now uid s userText = .ok out) :
    out = fullGeneration c oracle now uid s ⟨uid, .user, userText, now⟩ ∨
    ∃ pr persona,
      s.pendingRetry = some pr ∧
      ¬ isExactMatch userText pr.expected = true ∧
      pr.attempts + 1 < 3 ∧
      out = { session := { s with
                updatedAt := now,
                transcript := s.transcript ++ [⟨uid, .user, userText, now⟩,
                  ⟨uid + 2, .tutor,
                    generateRetryMessage pr.expected (pr.attempts + 1) persona, now⟩],
                turnCount := s.turnCount + 1,
                pendingRetry := some ⟨pr.expected, pr.attempts + 1⟩ },
              llmMs := 0,
              toolMs := 0,
              decisionCalls := 0,
              narrationCalls := 0 } := by
  unfold processTurn at h
  split at h
  · exact absurd h (by simp)
  split at h
  · exact absurd h (by simp)
  split at h
  · exact absurd h (by simp)
  next persona hpers =>
  split at h
  next pr hpr =>
    split at h
    next hmatch =>
      exact Or.inl (Except.ok.inj h).symm
    next hmatch =>
      split at h
      next hge =>
        exact Or.inl (Except.ok.inj h).symm
      next hge =>
        refine Or.inr ⟨pr, persona, hpr, hmatch, by omega, ?_⟩
        exact (Except.ok.inj h).symm
  next hnone =>
    exact Or.inl (Except.ok.inj h).symm

theorem processTurn_ok_full (c : Content) (oracle : TurnOracle) (now uid : Nat)
    (s : SessionState) (userText : String) (out : ProcessTurnOutput)
    (hngate : NoShortCircuit s userText)
    (h : processTurn c oracle now uid s userText = .ok out) :
    out = fullGeneration c oracle now uid s ⟨uid, .user, userText, now⟩ := by
  rcases processTurn_ok_inv c oracle now uid s userText out h with hfull | hshort
  · exact hfull
  · rcases hshort with ⟨pr, persona, hpr, hmatch, hlt, _⟩
    rcases hngate pr hpr with hm | hge
    · exact absurd hm hmatch
    · omega

theorem executeTool_grade_toolName (c : Content) (now uid : Nat)
    (quizId : String) (answers : List Int) (session : SessionState) :
    (executeTool c now uid (.grade_quiz quizId answers) session).toolName =
      .grade_quiz := by
  simp only [executeTool]
  cases getQuizById c quizId with
  | none => rfl
  | some quiz =>
    simp only []
    split
    · rfl
    · split <;> rfl

theorem submitQuiz_graded_inv (c : Content) (now uid : Nat) (s : SessionState)
    (quizId : String) (answers : List Int) (r : QuizResult) (s2 : SessionState)
    (h : submitQuiz c now uid (some s) quizId answers = .graded r s2) :
    s2 = applyToolResultToSession s .grade_quiz
      (executeTool c now uid (.grade_quiz quizId answers) s).resultData now := by
  unfold submitQuiz at h
  dsimp only at h
  split at h
  next hsucc =>
    split at h
    next r2 hdata =>
      obtain ⟨hr, hs2⟩ := SubmitQuizOutcome.graded.inj h
      rw [← hs2, executeTool_grade_toolName]
    next hdata =>
      exact absurd h (by simp)
  next hsucc =>
    exact absurd h (by simp)

-- ===========================================================================
-- Claims
-- ===========================================================================

/-- Claim C1: in roleplay phase with `pendingRetry = {expected := e, attempts := n}`
and learner text whose normalization differs from that of `e`, `processTurn`
increments `attempts` to `n + 1`.  If `n + 1 < 3` it appends a locally
synthesized persona nudge as the tutor message, persists that session, and
returns `llmMs = 0`, `toolMs = 0` with zero language-model invocations.  If
`n + 1 ≥ 3` it falls through to decision generation, which invokes the
language model exactly once for the turn. -/
theorem retryGate_behavior
    (c : Content) (oracle : TurnOracle) (now uid : Nat) (s : SessionState)
    (userText : String) (scenario : Scenario) (persona : Persona)
    (e : String) (n : Nat)
    (hphase : s.phase = .roleplay)
    (hscen : getScenarioById c s.scenarioId = some scenario)
    (hpers : getPersonaById c scenario.personaId = some persona)
    (hretry : s.pendingRetry = some ⟨e, n⟩)
    (hmismatch : normalizeForExactMatch userText ≠ normalizeForExactMatch e) :
    (n + 1 < 3 →
      processTurn c oracle now uid s userText =
        .ok { session := { s with
                updatedAt := now,
                transcript := s.transcript ++
                  [⟨uid, .user, userText, now⟩,
                   ⟨uid + 2, .tutor, generateRetryMessage e (n + 1) persona, now⟩],
                turnCount := s.turnCount + 1,
                pendingRetry := some ⟨e, n + 1⟩ },
              llmMs := 0, toolMs := 0, decisionCalls := 0, narrationCalls := 0 }) ∧
    (3 ≤ n + 1 →
      processTurn c oracle now uid s userText =
        .ok (fullGeneration c oracle now uid s ⟨uid, .user, userText, now⟩) ∧
      (fullGeneration c oracle now uid s ⟨uid, .user, userText, now⟩).decisionCalls = 1) := by
  have hne : isExactMatch userText e = false := by
    simpa [isExactMatch, beq_eq_false_iff_ne] using hmismatch
  constructor
  · intro hlt
    simp [processTurn, hphase, hscen, hpers, hretry, hne, Nat.not_le.mpr hlt]
  · intro hge
    refine ⟨?_, fullGeneration_decisionCalls c oracle now uid s _⟩
    simp [processTurn, hphase, hscen, hpers, hretry, hne, hge]

theorem retryGate_behavior_witness :
    processTurn contentDemo oracleFail 5 10 sessionRetryDemo "no" = .ok turn1out ∧
    processTurn contentDemo oracleFail 6 13 turn1out.session "no" = .ok turn2out ∧
    turn1out.session.pendingRetry = some ⟨"al mercado", 1⟩ ∧
    turn2out.session.pendingRetry = some ⟨"al mercado", 2⟩ ∧
    turn1out.llmMs = 0 ∧ turn1out.toolMs = 0 ∧
    turn1out.decisionCalls = 0 ∧ turn2out.decisionCalls = 0 ∧
    processTurn contentDemo oracleFail 7 16 turn2out.session "no" =
      .ok (fullGeneration contentDemo oracleFail 7 16 turn2out.session
        ⟨16, .user, "no", 7⟩) ∧
    (fullGeneration contentDemo oracleFail 7 16 turn2out.session
      ⟨16, .user, "no", 7⟩).decisionCalls = 1 := by
  refine ⟨?_, ?_, by decide, by decide, rfl, rfl, rfl, rfl, ?_, ?_⟩
  · exact (retryGate_behavior contentDemo oracleFail 5 10 sessionRetryDemo "no"
      scenarioDemo personaDemo "al mercado" 0 rfl rfl rfl rfl (by decide)).1 (by decide)
  · exact (retryGate_behavior contentDemo oracleFail 6 13 turn1out.session "no"
      scenarioDemo personaDemo "al mercado" (0 + 1) rfl rfl rfl rfl (by decide)).1 (by decide)
  · exact ((retryGate_behavior contentDemo oracleFail 7 16 turn2out.session "no"
      scenarioDemo personaDemo "al mercado" (0 + 1 + 1) rfl rfl rfl rfl (by decide)).2
      (by decide)).1
  · exact ((retryGate_behavior contentDemo oracleFail 7 16 turn2out.session "no"
      scenarioDemo personaDemo "al mercado" (0 + 1 + 1) rfl rfl rfl rfl (by decide)).2
      (by decide)).2

/-- Claim C2: when the decision-generation call fails on a non-gated roleplay
turn, `processTurn` does not propagate the error: the fixed fallback decision
(`isMistake = false`, `shouldRetry = false`, `tool = none`, the fixed apology
reply) is substituted, the apology is appended as the tutor message,
`turnCount` increments by one, `pendingRetry` ends up unset, and the updated
session is persisted. -/
theorem fallback_on_llm_failure
    (c : Content) (oracle : TurnOracle) (now uid : Nat) (s : SessionState)
    (userText : String) (scenario : Scenario) (persona : Persona) (err : String)
    (hphase : s.phase = .roleplay)
    (hscen : getScenarioById c s.scenarioId = some scenario)
    (hpers : getPersonaById c scenario.personaId = some persona)
    (hngate : NoShortCircuit s userText)
    (hfail : oracle.decision = .error err) :
    processTurn c oracle now uid s userText =
      .ok { session := { s with
              updatedAt := now,
              transcript := s.transcript ++
                [⟨uid, .user, userText, now⟩, ⟨uid + 2, .tutor, fallbackReply, now⟩],
              turnCount := s.turnCount + 1,
              pendingRetry := none,
              lastDecision := some createFallbackDecision },
            llmMs := oracle.llmDuration, toolMs := 0, decisionCalls := 1,
            narrationCalls := 0 } ∧
    createFallbackDecision.isMistake = false ∧
    createFallbackDecision.shouldRetry = false ∧
    createFallbackDecision.tool = none ∧
    createFallbackDecision.reply = "Sorry—something glitched. Please try that again." := by
  have hfull : processTurn c oracle now uid s userText =
      .ok (fullGeneration c oracle now uid s ⟨uid, .user, userText, now⟩) := by
    cases hpr : s.pendingRetry with
    | none => simp [processTurn, hphase, hscen, hpers, hpr]
    | some pr =>
      by_cases hm : isExactMatch userText pr.expected = true
      · simp [processTurn, hphase, hscen, hpers, hpr, hm]
      · rcases hngate pr hpr with hm2 | hge
        · exact absurd hm2 hm
        · simp [processTurn, hphase, hscen, hpers, hpr, hm, hge]
  refine ⟨?_, rfl, rfl, rfl, rfl⟩
  rw [hfull]
  simp [fullGeneration, decisionOf, hfail, toolStep, createFallbackDecision,
    truthyStr, fallbackReply]

theorem fallback_on_llm_failure_witness :
    processTurn contentDemo oracleFail 5 10 sessionDemo "hola" =
      .ok { session := { sessionDemo with
              updatedAt := 5,
              transcript := sessionDemo.transcript ++
                [⟨10, .user, "hola", 5⟩, ⟨12, .tutor, fallbackReply, 5⟩],
              turnCount := sessionDemo.turnCount + 1,
              pendingRetry := none,
              lastDecision := some createFallbackDecision },
            llmMs := oracleFail.llmDuration, toolMs := 0, decisionCalls := 1,
            narrationCalls := 0 } :=
  (fallback_on_llm_failure contentDemo oracleFail 5 10 sessionDemo "hola"
    scenarioDemo personaDemo "timeout" rfl rfl rfl
    (fun pr hpr => nomatch hpr) rfl).1

/-- Claim C7: applying a tool result with `success = false` changes nothing
but `updatedAt`: phase, transcript, turnCount, mistakes, pendingRetry,
lastDecision, activeQuiz, quizResult and completion all keep the input
session's values. -/
theorem tool_failure_frame
    (session : SessionState) (toolName : ToolName) (rd : ToolResultData)
    (now : Nat) (hfail : rd.success = false) :
    applyToolResultToSession session toolName rd now =
      { session with updatedAt := now } := by
  simp [applyToolResultToSession, hfail]

theorem tool_failure_frame_witness :
    applyToolResultToSession sessionDemo .grade_quiz
        ⟨false, "Quiz not found: qx", none⟩ 9 =
      { sessionDemo with updatedAt := 9 } :=
  tool_failure_frame sessionDemo .grade_quiz ⟨false, "Quiz not found: qx", none⟩ 9 rfl

/-- Claim C10: on the gated-retry short-circuit path (pending retry set,
learner text not matching, incremented attempts below the threshold),
`processTurn` leaves `session.lastDecision` unchanged: the caller still
observes the decision of the most recent full-generation turn, or none if no
such turn occurred. -/
theorem retry_shortCircuit_keeps_lastDecision
    (c : Content) (oracle : TurnOracle) (now uid : Nat) (s : SessionState)
    (userText : String) (scenario : Scenario) (persona : Persona)
    (pr : PendingRetry) (out : ProcessTurnOutput)
    (hphase : s.phase = .roleplay)
    (hscen : getScenarioById c s.scenarioId = some scenario)
    (hpers : getPersonaById c scenario.personaId = some persona)
    (hretry : s.pendingRetry = some pr)
    (hmismatch : normalizeForExactMatch userText ≠ normalizeForExactMatch pr.expected)
    (hlt : pr.attempts + 1 < 3)
    (hok : processTurn c oracle now uid s userText = .ok out) :
    out.session.lastDecision = s.lastDecision := by
  have hne : isExactMatch userText pr.expected = false := by
    simpa [isExactMatch, beq_eq_false_iff_ne] using hmismatch
  have hshort : processTurn c oracle now uid s userText =
      .ok { session := { s with
              updatedAt := now,
              transcript := s.transcript ++
                [⟨uid, .user, userText, now⟩,
                 ⟨uid + 2, .tutor,
                   generateRetryMessage pr.expected (pr.attempts + 1) persona, now⟩],
              turnCount := s.turnCount + 1,
              pendingRetry := some ⟨pr.expected, pr.attempts + 1⟩ },
            llmMs := 0, toolMs := 0, decisionCalls := 0, narrationCalls := 0 } := by
    simp [processTurn, hphase, hscen, hpers, hretry, hne, Nat.not_le.mpr hlt]
  rw [hshort] at hok
  rw [← Except.ok.inj hok]

theorem retry_shortCircuit_keeps_lastDecision_witness :
    ({ session := { sessionRetryDemo with
          updatedAt := 5,
          transcript := sessionRetryDemo.transcript ++
            [⟨10, .user, "no", 5⟩,
             ⟨12, .tutor, generateRetryMessage "al mercado" (0 + 1) personaDemo, 5⟩],
          turnCount := sessionRetryDemo.turnCount + 1,
          pendingRetry := some ⟨"al mercado", 0 + 1⟩ },
        llmMs := 0, toolMs := 0, decisionCalls := 0,
        narrationCalls := 0 } : ProcessTurnOutput).session.lastDecision =
      sessionRetryDemo.lastDecision :=
  retry_shortCircuit_keeps_lastDecision contentDemo oracleFail 5 10
    sessionRetryDemo "no" scenarioDemo personaDemo ⟨"al mercado", 0⟩ _
    rfl rfl rfl rfl (by decide) (by decide) rfl

theorem phaseIdx_le_two (p : Phase) : phaseIdx p ≤ 2 := by
  cases p <;> simp [phaseIdx]

theorem engineStep_phase_mono (c : Content) (s s2 : SessionState)
    (h : EngineStep c s s2) : phaseIdx s.phase ≤ phaseIdx s2.phase := by
  cases h with
  | turn oracle now uid userText sx out hok =>
    rw [processTurn_ok_phase _ _ _ _ _ _ _ hok]
    exact Nat.zero_le _
  | finish now =>
    have h2 : (endSession now s).1.phase = .completed := rfl
    rw [h2]
    exact phaseIdx_le_two _
  | submit now uid quizId answers sx r sy hgr =>
    rw [submitQuiz_graded_inv _ _ _ _ _ _ _ _ hgr, applyTool_grade_phase]

theorem engineStep_shape (c : Content) (s s2 : SessionState)
    (h : EngineStep c s s2) :
    (s2.transcript = s.transcript ∧ s2.turnCount = s.turnCount) ∨
    ∃ m1 m2, s2.transcript = s.transcript ++ [m1, m2] ∧
      s2.turnCount = s.turnCount + 1 := by
  cases h with
  | turn oracle now uid userText sx out hok =>
    rcases processTurn_ok_inv _ _ _ _ _ _ _ hok with hfull | ⟨pr, persona, _, _, _, hout⟩
    · right
      rw [hfull]
      exact ⟨_, _, fullGeneration_transcript _ _ _ _ _ _,
        fullGeneration_turnCount _ _ _ _ _ _⟩
    · right
      rw [hout]
      exact ⟨_, _, rfl, rfl⟩
  | finish now => exact Or.inl ⟨rfl, rfl⟩
  | submit now uid quizId answers sx r sy hgr =>
    rw [submitQuiz_graded_inv _ _ _ _ _ _ _ _ hgr]
    exact Or.inl ⟨applyTool_transcript _ _ _ _, applyTool_turnCount _ _ _ _⟩

/-- Claim C3: along every sequence of engine operations (processed turns with
their internal tool applications, end-session calls, authoritative quiz
submissions) the phase index only grows — `roleplay → quiz → completed`,
never regressing — and once `phase = completed`, `processTurn` always fails
with the invalid-phase error, producing no updated session. -/
theorem phase_monotonicity :
    (∀ (c : Content) (s s2 : SessionState),
        Relation.ReflTransGen (EngineStep c) s s2 →
        phaseIdx s.phase ≤ phaseIdx s2.phase) ∧
    (∀ (c : Content) (oracle : TurnOracle) (now uid : Nat) (s : SessionState)
        (userText : String), s.phase = .completed →
        processTurn c oracle now uid s userText =
          .error (.invalidPhase .completed)) := by
  constructor
  · intro c s s2 h
    induction h with
    | refl => exact Nat.le_refl _
    | tail hsteps hstep ih =>
      exact le_trans ih (engineStep_phase_mono _ _ _ hstep)
  · intro c oracle now uid s userText h
    simp [processTurn, h]

theorem phase_monotonicity_witness :
    phaseIdx sessionDemo.phase ≤ phaseIdx sessionDemo.phase ∧
    processTurn contentDemo oracleFail 5 10 completedSessionDemo "hola" =
      .error (.invalidPhase .completed) :=
  ⟨phase_monotonicity.1 contentDemo sessionDemo sessionDemo
     Relation.ReflTransGen.refl,
   phase_monotonicity.2 contentDemo oracleFail 5 10 completedSessionDemo "hola" rfl⟩

/-- Claim C9: a freshly created session satisfies
`transcript.length = 2 * turnCount + 1` (the initial tutor greeting is the
`+1`), every engine operation only ever appends to the transcript (messages
are never removed or modified), and the length equation is preserved by every
sequence of engine operations — in particular it holds again after any batch
of processed turns. -/
theorem transcript_append_only :
    (∀ (c : Content) (now : Nat) (sid : String) (mid : Nat)
        (levelId scenarioId : String) (s : SessionState),
        createSession c now sid mid levelId scenarioId = .ok s →
        s.transcript.length = 2 * s.turnCount + 1) ∧
    (∀ (c : Content) (s s2 : SessionState),
        Relation.ReflTransGen (EngineStep c) s s2 →
        (∃ tail, s2.transcript = s.transcript ++ tail) ∧
        (s.transcript.length = 2 * s.turnCount + 1 →
          s2.transcript.length = 2 * s2.turnCount + 1)) := by
  constructor
  · intro c now sid mid levelId scenarioId s h
    unfold createSession at h
    split at h
    · exact absurd h (by simp)
    split at h
    · exact absurd h (by simp)
    · obtain rfl := (Except.ok.inj h)
      simp
  · intro c s s2 h
    induction h with
    | refl => exact ⟨⟨[], by simp⟩, fun h0 => h0⟩
    | tail hsteps hstep ih =>
      obtain ⟨⟨tail1, ht1⟩, hinv1⟩ := ih
      rcases engineStep_shape _ _ _ hstep with ⟨he1, he2⟩ | ⟨m1, m2, he1, he2⟩
      · refine ⟨⟨tail1, by rw [he1, ht1]⟩, fun h0 => ?_⟩
        rw [he1, he2]
        exact hinv1 h0
      · refine ⟨⟨tail1 ++ [m1, m2], by rw [he1, ht1, List.append_assoc]⟩,
          fun h0 => ?_⟩
        rw [he1, he2]
        have hb := hinv1 h0
        simp only [List.length_append, hb, List.length_cons, List.length_nil]
        omega

theorem transcript_append_only_witness :
    sessionDemo.transcript.length = 2 * sessionDemo.turnCount + 1 ∧
    (∃ tail, sessionDemo.transcript = sessionDemo.transcript ++ tail) :=
  ⟨transcript_append_only.1 contentDemo 0 "s1" 0 "A1" "taxi" sessionDemo rfl,
   (transcript_append_only.2 contentDemo sessionDemo sessionDemo
      Relation.ReflTransGen.refl).1⟩

theorem answerOk_iff (n : Nat) (a : Int) :
    answerOk n a = true ↔ a = -1 ∨ (0 ≤ a ∧ a < (n : Int)) := by
  simp [answerOk, Bool.or_eq_true, Bool.and_eq_true, decide_eq_true_eq, beq_iff_eq]

theorem firstBadAnswer_none_iff (items : List QuizItem) (answers : List Int)
    (i : Nat) :
    firstBadAnswer items answers i = none ↔
      ∀ p ∈ answers.zip items, answerOk p.2.options.length p.1 = true := by
  induction items generalizing answers i with
  | nil => cases answers <;> simp [firstBadAnswer]
  | cons item items ih =>
    cases answers with
    | nil => simp [firstBadAnswer]
    | cons a rest =>
      by_cases hok : answerOk item.options.length a = true
      · simp [firstBadAnswer, hok, ih]
      · simp [firstBadAnswer, hok]

/-- Claim C4: grading `grade_quiz(quizId, answers)` fails when the quiz is
unknown, when the answer count differs from the item count, or when some
answer lies outside `[-1, optionCount-1]`; otherwise it succeeds with
`total = items.length`, the exact answers array, and the rounded percentage
score; an answer of `-1` never counts as correct. -/
theorem grade_quiz_correctness
    (c : Content) (now uid : Nat) (quizId : String) (answers : List Int)
    (session : SessionState) (quiz : Quiz)
    (hquiz : getQuizById c quizId = some quiz) (hne : quiz.items ≠ []) :
    ((executeTool c now uid (.grade_quiz quizId answers) session).resultData.success = true ↔
      answers.length = quiz.items.length ∧
        ∀ p ∈ answers.zip quiz.items,
          p.1 = -1 ∨ (0 ≤ p.1 ∧ p.1 < (p.2.options.length : Int))) ∧
    (answers.length = quiz.items.length →
      (∀ p ∈ answers.zip quiz.items,
          p.1 = -1 ∨ (0 ≤ p.1 ∧ p.1 < (p.2.options.length : Int))) →
      (executeTool c now uid (.grade_quiz quizId answers) session).resultData.data =
        some (.quizResultData
          { quizId := quizId,
            score := quizScore (countCorrect quiz.items answers) quiz.items.length,
            total := quiz.items.length,
            answers := answers,
            completedAt := now })) ∧
    (∀ (c2 : Content) (now2 uid2 : Nat) (qid2 : String) (ans2 : List Int)
        (sess2 : SessionState), getQuizById c2 qid2 = none →
        (executeTool c2 now2 uid2 (.grade_quiz qid2 ans2) sess2).resultData.success = false) ∧
    (∀ (items : List QuizItem) (ans : List Int),
        (∀ a ∈ ans, a = -1) → countCorrect items ans = 0) := by
  refine ⟨?_, ?_, ?_, ?_⟩
  · by_cases hlen : answers.length = quiz.items.length
    · cases hbad : firstBadAnswer quiz.items answers 0 with
      | none =>
        have hP : ∀ p ∈ answers.zip quiz.items,
            p.1 = -1 ∨ (0 ≤ p.1 ∧ p.1 < (p.2.options.length : Int)) := by
          intro p hp
          have := (firstBadAnswer_none_iff quiz.items answers 0).mp hbad p hp
          simpa [answerOk_iff] using this
        simp [executeTool, hquiz, hlen, hbad]
        exact fun a b hab => hP (a, b) hab
      | some bad =>
        obtain ⟨i, a, nopt⟩ := bad
        have hs : (executeTool c now uid (.grade_quiz quizId answers) session).resultData.success = false := by
          simp [executeTool, hquiz, hlen, hbad]
        rw [hs]
        simp only [Bool.false_eq_true, false_iff, not_and]
        intro _ hP
        have hnone : firstBadAnswer quiz.items answers 0 = none :=
          (firstBadAnswer_none_iff _ _ _).mpr
            (fun p hp => by simpa [answerOk_iff] using hP p hp)
        rw [hnone] at hbad
        exact absurd hbad (by simp)
    · simp [executeTool, hquiz, hlen]
  · intro hlen hP
    have hbad : firstBadAnswer quiz.items answers 0 = none :=
      (firstBadAnswer_none_iff _ _ _).mpr
        (fun p hp => by simpa [answerOk_iff] using hP p hp)
    simp [executeTool, hquiz, hlen, hbad]
  · intro c2 now2 uid2 qid2 ans2 sess2 hnone
    simp [executeTool, hnone]
  · intro items ans
    induction items generalizing ans with
    | nil => intro _hall; rfl
    | cons item items ih =>
      intro hall
      cases ans with
      | nil => rfl
      | cons a rest =>
        have ha : a = -1 := hall a (by simp)
        have hfalse : (a == (item.correctIndex : Int)) = false := by
          simp only [beq_eq_false_iff_ne, ha]
          omega
        simp only [countCorrect, hfalse, Bool.false_eq_true, if_false, Nat.zero_add]
        exact ih rest (fun b hb => hall b (by simp [hb]))

theorem grade_quiz_correctness_witness :
    getQuizById contentDemo "q1" = some quizDemo ∧
    quizDemo.items ≠ [] ∧
    (executeTool contentDemo 7 20 (.grade_quiz "q1" [0, 1, -1]) sessionDemo).resultData.data =
      some (.quizResultData ⟨"q1", 67, 3, [0, 1, -1], 7⟩) ∧
    quizScore (countCorrect quizDemo.items [0, 1, -1]) quizDemo.items.length = 67 := by
  refine ⟨rfl, by decide, ?_, by decide⟩
  have h := (grade_quiz_correctness contentDemo 7 20 "q1" [0, 1, -1] sessionDemo
    quizDemo rfl (by decide)).2.1 (by decide) (by decide)
  exact h.trans (by decide)

/-- Claim C5 counterexample: a schema-valid decision with `isMistake = false`
but `shouldRetry = true` and a non-empty correction still installs a pending
retry, so the stored `pendingRetry` is not governed by
`isMistake ∧ shouldRetry` as the claim states. -/
theorem pendingRetry_isMistake_claim_false :
    decisionRetryNoMistake.isMistake = false ∧
    (processTurn contentDemo oracleRetryNoMistake 5 10 sessionDemo "hola").toOption.map
        (fun out => out.session.pendingRetry) =
      some (some ⟨"al mercado", 0⟩) := ⟨rfl, by decide⟩

/-- Claim C5 (amended): at the end of every turn that did not short-circuit on
a gated retry, the stored `pendingRetry` is computed solely from the decision
shown to the learner this turn (the new `lastDecision`): it is
`{expected := correction, attempts := 0}` exactly when that decision has
`shouldRetry = true` together with a present and non-empty `correction`
(JavaScript truthiness); otherwise it is cleared.  `isMistake` plays no
role. -/
theorem pendingRetry_from_decision
    (c : Content) (oracle : TurnOracle) (now uid : Nat) (s : SessionState)
    (userText : String) (out : ProcessTurnOutput) (d : TeacherDecision)
    (hngate : NoShortCircuit s userText)
    (hok : processTurn c oracle now uid s userText = .ok out)
    (hlast : out.session.lastDecision = some d) :
    out.session.pendingRetry =
      (if d.shouldRetry && truthyStr d.correction then
        some ⟨d.correction.getD "", 0⟩
      else none) := by
  obtain rfl := processTurn_ok_full c oracle now uid s userText out hngate hok
  have hd : (toolStep c oracle now uid s (decisionOf oracle.decision)).finalDecision = d := by
    have heq := fullGeneration_lastDecision c oracle now uid s ⟨uid, .user, userText, now⟩
    rw [heq] at hlast
    exact Option.some.inj hlast
  rw [fullGeneration_pendingRetry, hd]

theorem pendingRetry_from_decision_witness :
    (fullGeneration contentDemo oracleRetryNoMistake 5 10 sessionDemo
        ⟨10, .user, "hola", 5⟩).session.pendingRetry =
      (if decisionRetryNoMistake.shouldRetry && truthyStr decisionRetryNoMistake.correction then
        some ⟨decisionRetryNoMistake.correction.getD "", 0⟩
      else none) :=
  pendingRetry_from_decision contentDemo oracleRetryNoMistake 5 10 sessionDemo
    "hola" _ decisionRetryNoMistake (fun pr hpr => nomatch hpr) rfl rfl

theorem executeTool_grade_success_eq
    (c : Content) (now uid : Nat) (quizId : String) (answers : List Int)
    (session : SessionState) (quiz : Quiz)
    (hquiz : getQuizById c quizId = some quiz)
    (hlen : answers.length = quiz.items.length)
    (hbad : firstBadAnswer quiz.items answers 0 = none) :
    executeTool c now uid (.grade_quiz quizId answers) session =
      ⟨.grade_quiz,
       ⟨true,
        "Quiz graded: " ++ toString (countCorrect quiz.items answers) ++ "/" ++
          toString quiz.items.length ++ " correct (" ++
          toString (quizScore (countCorrect quiz.items answers) quiz.items.length) ++ "%)",
        some (.quizResultData
          ⟨quizId, quizScore (countCorrect quiz.items answers) quiz.items.length,
           quiz.items.length, answers, now⟩)⟩⟩ := by
  simp [executeTool, hquiz, hlen, hbad]

/-- Claim C6 counterexample: `submitQuiz` does not reject a session whose
phase is already `completed` — the quiz is graded and the session mutated. -/
theorem submitQuiz_preconditions_claim_false :
    completedSessionDemo.phase = .completed ∧
    submitQuiz contentDemo 7 20 (some completedSessionDemo) "q1" [0, 1, -1] =
      .graded ⟨"q1", 67, 3, [0, 1, -1], 7⟩
        { completedSessionDemo with
          updatedAt := 7,
          quizResult := some ⟨"q1", 67, 3, [0, 1, -1], 7⟩ } := ⟨rfl, by decide⟩

/-- Claim C6 (amended): `submitQuiz` rejects only a missing session or a
failed grading; it checks neither the session's phase (a `completed` session
is accepted) nor whether `quizId` matches `activeQuiz`/`postQuizId`.  When
grading succeeds it persists the result of the same `grade_quiz` Tool
Executor and Applier used by the conversational path. -/
theorem submitQuiz_delegation
    (c : Content) (now uid : Nat) (s : SessionState) (quizId : String)
    (answers : List Int) (quiz : Quiz)
    (hquiz : getQuizById c quizId = some quiz)
    (hlen : answers.length = quiz.items.length)
    (hrange : ∀ p ∈ answers.zip quiz.items,
        p.1 = -1 ∨ (0 ≤ p.1 ∧ p.1 < (p.2.options.length : Int))) :
    submitQuiz c now uid (some s) quizId answers =
      .graded
        ⟨quizId, quizScore (countCorrect quiz.items answers) quiz.items.length,
         quiz.items.length, answers, now⟩
        (applyToolResultToSession s .grade_quiz
          (executeTool c now uid (.grade_quiz quizId answers) s).resultData now) ∧
    submitQuiz c now uid none quizId answers = .sessionMissing := by
  have hbad : firstBadAnswer quiz.items answers 0 = none :=
    (firstBadAnswer_none_iff _ _ _).mpr
      (fun p hp => by simpa [answerOk_iff] using hrange p hp)
  have he := executeTool_grade_success_eq c now uid quizId answers s quiz hquiz hlen hbad
  refine ⟨?_, rfl⟩
  unfold submitQuiz
  dsimp only
  rw [he]
  rfl

-- ---------------------------------------------------------------------------
-- Normalizer lemmas (towards claim C8)
-- ---------------------------------------------------------------------------

theorem toNat_ofNat_valid (n : Nat) (h : n.isValidChar) :
    (Char.ofNat n).toNat = n := by
  rw [Char.ofNat, dif_pos h]
  rfl

theorem jsLower_idem (c : Char) : jsLower (jsLower c) = jsLower c := by
  by_cases h : (65 ≤ c.toNat && c.toNat ≤ 90) = true
  · have hb : 65 ≤ c.toNat ∧ c.toNat ≤ 90 := by
      simpa [Bool.and_eq_true, decide_eq_true_eq] using h
    have hv : (c.toNat + 32).isValidChar := Or.inl (by omega)
    have ht : (Char.ofNat (c.toNat + 32)).toNat = c.toNat + 32 :=
      toNat_ofNat_valid _ hv
    have hgt : ¬ ((Char.ofNat (c.toNat + 32)).toNat ≤ 90) := by
      rw [ht]; omega
    simp [jsLower, h, hgt]
  · simp [jsLower, h]

theorem mem_of_mem_dropWhile (p : Char → Bool) (l : List Char) (a : Char)
    (h : a ∈ l.dropWhile p) : a ∈ l := by
  rw [← List.takeWhile_append_dropWhile p l]
  exact List.mem_append_right _ h

theorem mem_of_mem_dropTrailingWhile (p : Char → Bool) (l : List Char) (a : Char)
    (h : a ∈ dropTrailingWhile p l) : a ∈ l := by
  unfold dropTrailingWhile at h
  rw [List.mem_reverse] at h
  have h2 := mem_of_mem_dropWhile _ _ _ h
  rwa [List.mem_reverse] at h2

theorem mem_of_mem_trimWs (l : List Char) (a : Char) (h : a ∈ trimWs l) :
    a ∈ l :=
  mem_of_mem_dropWhile _ _ _ (mem_of_mem_dropTrailingWhile _ _ _ h)

theorem mem_of_mem_stripPunct (l : List Char) (a : Char) (h : a ∈ stripPunct l) :
    a ∈ l :=
  mem_of_mem_dropWhile _ _ _ (mem_of_mem_dropTrailingWhile _ _ _ h)

theorem mem_collapseGo (b : Bool) (l : List Char) (a : Char)
    (h : a ∈ collapseGo b l) : (a ∈ l ∧ isWs a = false) ∨ a = ' ' := by
  induction l generalizing b with
  | nil => simp [collapseGo] at h
  | cons c rest ih =>
    by_cases hc : isWs c = true
    · cases b with
      | true =>
        rw [show collapseGo true (c :: rest) = collapseGo true rest from by
          simp [collapseGo, hc]] at h
        rcases ih true h with ⟨hm, hw⟩ | hsp
        · exact Or.inl ⟨List.mem_cons_of_mem _ hm, hw⟩
        · exact Or.inr hsp
      | false =>
        rw [show collapseGo false (c :: rest) = ' ' :: collapseGo true rest from by
          simp [collapseGo, hc]] at h
        rcases List.mem_cons.mp h with hsp | hm
        · exact Or.inr hsp
        · rcases ih true hm with ⟨hm2, hw⟩ | hsp
          · exact Or.inl ⟨List.mem_cons_of_mem _ hm2, hw⟩
          · exact Or.inr hsp
    · rw [Bool.not_eq_true] at hc
      rw [show collapseGo b (c :: rest) = c :: collapseGo false rest from by
        simp [collapseGo, hc]] at h
      rcases List.mem_cons.mp h with hsp | hm
      · subst hsp; exact Or.inl ⟨List.mem_cons_self _ _, hc⟩
      · rcases ih false hm with ⟨hm2, hw⟩ | hsp
        · exact Or.inl ⟨List.mem_cons_of_mem _ hm2, hw⟩
        · exact Or.inr hsp

theorem mem_collapseWs (l : List Char) (a : Char) (h : a ∈ collapseWs l) :
    (a ∈ l ∧ isWs a = false) ∨ a = ' ' :=
  mem_collapseGo false l a h

theorem map_jsLower_eq_self (l : List Char) (h : ∀ a ∈ l, jsLower a = a) :
    l.map jsLower = l := by
  rw [List.map_congr_left h]
  exact List.map_id l

theorem lowered_normChars (l : List Char) (a : Char) (h : a ∈ normChars l) :
    jsLower a = a := by
  have h1 := mem_of_mem_stripPunct _ _ h
  rcases mem_collapseWs _ _ h1 with ⟨h2, _⟩ | h2
  · have h3 := mem_of_mem_trimWs _ _ h2
    rcases List.mem_map.mp h3 with ⟨b, _, rfl⟩
    exact jsLower_idem b
  · subst h2
    rfl

theorem mem_of_head? (l : List Char) (d : Char) (h : l.head? = some d) :
    d ∈ l := by
  cases l with
  | nil => simp at h
  | cons c rest =>
    rw [List.head?_cons] at h
    obtain rfl := Option.some.inj h
    exact List.mem_cons_self _ _

theorem mem_of_getLast? (l : List Char) (d : Char) (h : l.getLast? = some d) :
    d ∈ l := by
  rw [← List.head?_reverse] at h
  have h2 : d ∈ l.reverse := mem_of_head? _ _ h
  rwa [List.mem_reverse] at h2

theorem head?_dropWhile_not (p : Char → Bool) (l : List Char) (d : Char)
    (h : (l.dropWhile p).head? = some d) : p d = false := by
  induction l with
  | nil => simp [List.dropWhile] at h
  | cons c rest ih =>
    rw [List.dropWhile_cons] at h
    by_cases hc : p c = true
    · rw [if_pos hc] at h
      exact ih h
    · rw [Bool.not_eq_true] at hc
      rw [if_neg (by simp [hc])] at h
      rw [List.head?_cons] at h
      obtain rfl := Option.some.inj h
      exact hc

theorem dropWhile_eq_self_of_head (p : Char → Bool) (l : List Char)
    (h : ∀ d, l.head? = some d → p d = false) : l.dropWhile p = l := by
  cases l with
  | nil => rfl
  | cons c rest =>
    have hc := h c rfl
    rw [List.dropWhile_cons, if_neg (by simp [hc])]

theorem dropTrailingWhile_eq_self (p : Char → Bool) (l : List Char)
    (h : ∀ d, l.getLast? = some d → p d = false) : dropTrailingWhile p l = l := by
  unfold dropTrailingWhile
  rw [dropWhile_eq_self_of_head p l.reverse
    (fun d hd => h d (by rwa [List.head?_reverse] at hd)), List.reverse_reverse]

theorem getLast?_dropTrailingWhile_not (p : Char → Bool) (l : List Char)
    (d : Char) (h : (dropTrailingWhile p l).getLast? = some d) : p d = false := by
  unfold dropTrailingWhile at h
  rw [List.getLast?_reverse] at h
  exact head?_dropWhile_not p l.reverse d h

theorem exists_takeWhile_append (p : Char → Bool) (l : List Char) :
    ∃ l1, l = l1 ++ l.dropWhile p :=
  ⟨l.takeWhile p, (List.takeWhile_append_dropWhile p l).symm⟩

theorem exists_dropTrailingWhile_append (p : Char → Bool) (l : List Char) :
    ∃ l2, l = dropTrailingWhile p l ++ l2 := by
  refine ⟨(l.reverse.takeWhile p).reverse, ?_⟩
  unfold dropTrailingWhile
  rw [← List.reverse_append, List.takeWhile_append_dropWhile, List.reverse_reverse]

theorem head?_dropTrailingWhile (p : Char → Bool) (l : List Char) (d : Char)
    (h : (dropTrailingWhile p l).head? = some d) : l.head? = some d := by
  obtain ⟨l2, hl2⟩ := exists_dropTrailingWhile_append p l
  rw [hl2]
  cases hdt : dropTrailingWhile p l with
  | nil => rw [hdt] at h; simp at h
  | cons c rest =>
    rw [hdt] at h
    rw [List.head?_cons] at h
    rw [List.cons_append, List.head?_cons]
    exact h

/-- Shape of a collapsed string: every whitespace character is a single space
that is not followed by another whitespace character. -/
def WsTidy : List Char → Prop
  | [] => True
  | [c] => isWs c = true → c = ' '
  | c1 :: c2 :: rest => (isWs c1 = true → c1 = ' ' ∧ isWs c2 = false) ∧ WsTidy (c2 :: rest)

theorem wsTidy_tail (c : Char) (l : List Char) (h : WsTidy (c :: l)) :
    WsTidy l := by
  cases l with
  | nil => trivial
  | cons c2 rest => exact h.2

theorem wsTidy_head_ws (c : Char) (l : List Char) (h : WsTidy (c :: l))
    (hc : isWs c = true) : c = ' ' := by
  cases l with
  | nil => exact h hc
  | cons c2 rest => exact (h.1 hc).1

theorem wsTidy_pair (c c2 : Char) (l : List Char) (h : WsTidy (c :: c2 :: l))
    (hc : isWs c = true) : isWs c2 = false :=
  (h.1 hc).2

theorem wsTidy_cons_not_ws (c : Char) (l : List Char) (hc : isWs c = false)
    (h : WsTidy l) : WsTidy (c :: l) := by
  cases l with
  | nil => intro hcc; rw [hc] at hcc; exact absurd hcc (by simp)
  | cons c2 rest => exact ⟨fun hcc => absurd hcc (by simp [hc]), h⟩

theorem wsTidy_cons_space (l : List Char)
    (hhead : ∀ d, l.head? = some d → isWs d = false) (h : WsTidy l) :
    WsTidy (' ' :: l) := by
  cases l with
  | nil => intro _; rfl
  | cons c2 rest => exact ⟨fun _ => ⟨rfl, hhead c2 rfl⟩, h⟩

theorem collapseGo_true_head (l : List Char) (d : Char)
    (h : (collapseGo true l).head? = some d) : isWs d = false := by
  induction l with
  | nil => simp [collapseGo] at h
  | cons c rest ih =>
    by_cases hc : isWs c = true
    · rw [show collapseGo true (c :: rest) = collapseGo true rest from by
        simp [collapseGo, hc]] at h
      exact ih h
    · rw [Bool.not_eq_true] at hc
      rw [show collapseGo true (c :: rest) = c :: collapseGo false rest from by
        simp [collapseGo, hc]] at h
      rw [List.head?_cons] at h
      obtain rfl := Option.some.inj h
      exact hc

theorem wsTidy_collapseGo (b : Bool) (l : List Char) :
    WsTidy (collapseGo b l) := by
  induction l generalizing b with
  | nil => trivial
  | cons c rest ih =>
    by_cases hc : isWs c = true
    · cases b with
      | true =>
        rw [show collapseGo true (c :: rest) = collapseGo true rest from by
          simp [collapseGo, hc]]
        exact ih true
      | false =>
        rw [show collapseGo false (c :: rest) = ' ' :: collapseGo true rest from by
          simp [collapseGo, hc]]
        exact wsTidy_cons_space _ (collapseGo_true_head rest) (ih true)
    · rw [Bool.not_eq_true] at hc
      rw [show collapseGo b (c :: rest) = c :: collapseGo false rest from by
        simp [collapseGo, hc]]
      exact wsTidy_cons_not_ws _ _ hc (ih false)

theorem wsTidy_append_right (l1 l2 : List Char) (h : WsTidy (l1 ++ l2)) :
    WsTidy l2 := by
  induction l1 with
  | nil => exact h
  | cons c rest ih => exact ih (wsTidy_tail _ _ h)

theorem wsTidy_append_left (l1 l2 : List Char) (h : WsTidy (l1 ++ l2)) :
    WsTidy l1 := by
  induction l1 with
  | nil => trivial
  | cons c rest ih =>
    cases rest with
    | nil => exact fun hc => wsTidy_head_ws c l2 h hc
    | cons c2 rest2 =>
      simp only [List.cons_append] at h
      exact ⟨h.1, ih (wsTidy_tail _ _ h)⟩

theorem collapseGo_false_eq_self (l : List Char) (h : WsTidy l) :
    collapseGo false l = l := by
  induction l with
  | nil => rfl
  | cons c rest ih =>
    by_cases hc : isWs c = true
    · have hcsp : c = ' ' := wsTidy_head_ws _ _ h hc
      cases rest with
      | nil => subst hcsp; rfl
      | cons c2 rest2 =>
        have hc2 : isWs c2 = false := wsTidy_pair _ _ _ h hc
        have ihres := ih (wsTidy_tail _ _ h)
        have step1 : collapseGo false (c :: c2 :: rest2) =
            ' ' :: collapseGo true (c2 :: rest2) := by
          simp [collapseGo, hc]
        have step2 : collapseGo true (c2 :: rest2) =
            c2 :: collapseGo false rest2 := by
          simp [collapseGo, hc2]
        have step3 : collapseGo false (c2 :: rest2) =
            c2 :: collapseGo false rest2 := by
          simp [collapseGo, hc2]
        rw [step1, step2, ← step3, ihres, hcsp]
    · rw [Bool.not_eq_true] at hc
      rw [show collapseGo false (c :: rest) = c :: collapseGo false rest from by
        simp [collapseGo, hc]]
      rw [ih (wsTidy_tail _ _ h)]

theorem stripPunct_eq_self (l : List Char)
    (hh : ∀ d, l.head? = some d → isStripPunct d = false)
    (hl : ∀ d, l.getLast? = some d → isStripPunct d = false) :
    stripPunct l = l := by
  unfold stripPunct
  rw [dropWhile_eq_self_of_head _ _ hh, dropTrailingWhile_eq_self _ _ hl]

/-- Core of claim C8 (amended): the normalization pipeline is idempotent on
every input whose normalization neither starts nor ends with a space. -/
theorem normChars_idem_of_trimmed (l : List Char)
    (h1 : (normChars l).head? ≠ some ' ')
    (h2 : (normChars l).getLast? ≠ some ' ') :
    normChars (normChars l) = normChars l := by
  have hmemws : ∀ a ∈ normChars l, isWs a = false ∨ a = ' ' := by
    intro a ha
    have hm := mem_of_mem_stripPunct _ _ ha
    rcases mem_collapseWs _ _ hm with ⟨_, hw⟩ | hsp
    · exact Or.inl hw
    · exact Or.inr hsp
  -- Stage 1: lowering is a no-op on the already-lowered output.
  have hstep1 : (normChars l).map jsLower = normChars l :=
    map_jsLower_eq_self _ (lowered_normChars l)
  -- Stage 2: trimming is a no-op (no boundary whitespace).
  have hheadws : ∀ d, (normChars l).head? = some d → isWs d = false := by
    intro d hd
    rcases hmemws d (mem_of_head? _ _ hd) with hw | hsp
    · exact hw
    · subst hsp; exact absurd hd h1
  have hlastws : ∀ d, (normChars l).getLast? = some d → isWs d = false := by
    intro d hd
    rcases hmemws d (mem_of_getLast? _ _ hd) with hw | hsp
    · exact hw
    · subst hsp; exact absurd hd h2
  have hstep2 : trimWs (normChars l) = normChars l := by
    unfold trimWs
    rw [dropWhile_eq_self_of_head _ _ hheadws,
        dropTrailingWhile_eq_self _ _ hlastws]
  -- Stage 3: collapsing is a no-op (the output of a collapse stays tidy
  -- through the final boundary-punctuation strip).
  have htidyU : WsTidy (collapseWs (trimWs (l.map jsLower))) :=
    wsTidy_collapseGo false _
  obtain ⟨la, hla⟩ := exists_takeWhile_append isStripPunct
    (collapseWs (trimWs (l.map jsLower)))
  have hdw : WsTidy ((collapseWs (trimWs (l.map jsLower))).dropWhile isStripPunct) := by
    rw [hla] at htidyU
    exact wsTidy_append_right _ _ htidyU
  obtain ⟨lb, hlb⟩ := exists_dropTrailingWhile_append isStripPunct
    ((collapseWs (trimWs (l.map jsLower))).dropWhile isStripPunct)
  have htidy : WsTidy (normChars l) := by
    rw [hlb] at hdw
    exact wsTidy_append_left _ _ hdw
  have hstep3 : collapseWs (normChars l) = normChars l :=
    collapseGo_false_eq_self _ htidy
  -- Stage 4: the boundary characters are never punctuation, so the strip is
  -- a no-op as well.
  have hheadp : ∀ d, (normChars l).head? = some d → isStripPunct d = false := by
    intro d hd
    exact head?_dropWhile_not _ _ _ (head?_dropTrailingWhile _ _ _ hd)
  have hlastp : ∀ d, (normChars l).getLast? = some d → isStripPunct d = false := by
    intro d hd
    exact getLast?_dropTrailingWhile_not _ _ _ hd
  have hstep4 : stripPunct (normChars l) = normChars l :=
    stripPunct_eq_self _ hheadp hlastp
  show stripPunct (collapseWs (trimWs ((normChars l).map jsLower))) = normChars l
  rw [hstep1, hstep2, hstep3, hstep4]

/-- Claim C8 counterexample: normalization is not idempotent — stripping the
trailing punctuation of `"hola ."` exposes a trailing space that only a
second pass removes. -/
theorem normalize_not_idempotent :
    normalizeForExactMatch (normalizeForExactMatch "hola .") ≠
      normalizeForExactMatch "hola ." ∧
    normalizeForExactMatch "hola ." = "hola " ∧
    normalizeForExactMatch (normalizeForExactMatch "hola .") = "hola" :=
  ⟨by decide, by decide, by decide⟩

/-- Claim C8 (amended): normalization is idempotent on every string whose
normalization neither begins nor ends with a space character — in general it
is not idempotent, because stripping a boundary punctuation run can expose
whitespace that only the next pass trims. -/
theorem normalize_idempotent_when_trimmed (s : String)
    (h1 : (normalizeForExactMatch s).toList.head? ≠ some ' ')
    (h2 : (normalizeForExactMatch s).toList.getLast? ≠ some ' ') :
    normalizeForExactMatch (normalizeForExactMatch s) = normalizeForExactMatch s := by
  have hlist : (normalizeForExactMatch s).toList = normChars s.toList := rfl
  rw [hlist] at h1 h2
  have key := normChars_idem_of_trimmed s.toList h1 h2
  show (normChars (normalizeForExactMatch s).toList).asString =
    (normChars s.toList).asString
  rw [hlist, key]

theorem normalize_idempotent_when_trimmed_witness :
    (normalizeForExactMatch "¡Hola!  Mundo.").toList.head? ≠ some ' ' ∧
    normalizeForExactMatch (normalizeForExactMatch "¡Hola!  Mundo.") =
      normalizeForExactMatch "¡Hola!  Mundo." :=
  ⟨by decide,
   normalize_idempotent_when_trimmed "¡Hola!  Mundo." (by decide) (by decide)⟩

theorem submitQuiz_delegation_witness :
    submitQuiz contentDemo 7 20 (some completedSessionDemo) "q1" [0, 1, -1] =
      .graded
        ⟨"q1", quizScore (countCorrect quizDemo.items [0, 1, -1]) quizDemo.items.length,
         quizDemo.items.length, [0, 1, -1], 7⟩
        (applyToolResultToSession completedSessionDemo .grade_quiz
          (executeTool contentDemo 7 20 (.grade_quiz "q1" [0, 1, -1])
            completedSessionDemo).resultData 7) ∧
    submitQuiz contentDemo 7 20 none "q1" [0, 1, -1] = .sessionMissing :=
  submitQuiz_delegation contentDemo 7 20 completedSessionDemo "q1" [0, 1, -1]
    quizDemo rfl (by decide) (by decide)

end ConvApp
